import Mathlib

/-!
Shallow embedding of the quiz backend (src/index.js) and proofs about its
quiz lifecycle, scoring, leaderboard and summary logic.

Conventions of the embedding:
* JS times (`Date.now()`, `Date` values) are milliseconds, modelled as `Int`.
  A field that may be `undefined` (a quiz's `startTime`/`endTime` before the
  quiz is started) is an `Option Int`; the JS comparison `now > undefined`
  evaluates to `false` (NaN comparison), which `timeOver` reproduces.
* MongoDB documents are Lean structures; the collections are lists in a
  `Store`; `findOne` is `List.find?`, `create` appends, `save` replaces the
  found document in place.
* `duration` is in seconds, as in the source (`endTime = Date.now() + duration * 1000`).
-/

namespace QuizBackend

/-- Embedded `questions` array element of `QuizSchema`: text, options, correctIndex. -/
structure Question where
  text : String
  options : List String
  correctIndex : Int
  deriving Repr, DecidableEq

/-- Embedded `QuizSchema` document. The `status` string defaults to "created"
and is set to "live" by the start route; times are unset until the quiz starts. -/
structure Quiz where
  code : String
  title : String
  description : String
  duration : Int
  creatorId : String
  status : String
  startTime : Option Int
  endTime : Option Int
  questions : List Question
  createdAt : Int
  deriving Repr, DecidableEq

/-- Embedded `SubmissionSchema` document. -/
structure Submission where
  quizCode : String
  name : String
  branch : String
  rollNo : String
  answers : List Int
  score : Nat
  submittedAt : Int
  deriving Repr, DecidableEq

/-- The two MongoDB collections the quiz routes touch. -/
structure Store where
  quizzes : List Quiz
  submissions : List Submission
  deriving Repr, DecidableEq

/-- Error outcomes of the routes (HTTP status plus message collapsed to a tag). -/
inductive ApiError where
  | notFound
  | forbidden
  | invalidState
  | timeExpired
  | alreadyAttempted
  | validationError
  deriving Repr, DecidableEq

/-- Embeds the JS comparison `Date.now() > quiz.endTime`: when `endTime` is
undefined (quiz never started) the comparison is with NaN and yields `false`. -/
def timeOver (now : Int) (endTime : Option Int) : Bool :=
  match endTime with
  | some e => decide (e < now)
  | none => false

/-- Embeds the scoring loop of POST /api/quiz/submit/:code:
`quiz.questions.forEach((q, i) => { if (answers[i] === q.correctIndex) score++; })`.
An index `i` beyond the answers list reads `undefined` (here `none`), which
never equals a number, so it scores nothing. -/
def computeScore (questions : List Question) (answers : List Int) : Nat :=
  questions.enum.foldl
    (fun score p => if answers[p.1]? == some p.2.correctIndex then score + 1 else score) 0

/-- Success payload of POST /api/quiz/submit/:code. -/
structure SubmitResult where
  score : Nat
  total : Nat
  deriving Repr, DecidableEq

/-- Embeds POST /api/quiz/submit/:code. Looks the quiz up by code, rejects when
time is over or a submission with the same (quizCode, rollNo) exists, otherwise
scores the answers and appends the new submission. The route performs no quiz
status check. -/
def submitAnswers (st : Store) (now : Int) (code name branch rollNo : String)
    (answers : List Int) : Except ApiError (SubmitResult × Store) :=
  match st.quizzes.find? (fun q => q.code == code) with
  | none => .error .notFound
  | some quiz =>
    if timeOver now quiz.endTime then .error .timeExpired
    else
      match st.submissions.find? (fun s => s.quizCode == quiz.code && s.rollNo == rollNo) with
      | some _ => .error .alreadyAttempted
      | none =>
        let score := computeScore quiz.questions answers
        .ok ({ score := score, total := quiz.questions.length },
             { st with submissions := st.submissions ++
                 [{ quizCode := quiz.code, name := name, branch := branch, rollNo := rollNo,
                    answers := answers, score := score, submittedAt := now }] })

/-- The in-place update a started quiz receives before `quiz.save()`:
status becomes "live", startTime now, endTime now plus duration seconds. -/
def startedQuiz (quiz : Quiz) (now : Int) : Quiz :=
  { quiz with status := "live", startTime := some now,
              endTime := some (now + quiz.duration * 1000) }

/-- Embeds `quiz.save()`: replaces the first document matching the code. -/
def saveQuiz (code : String) (q' : Quiz) : List Quiz → List Quiz
  | [] => []
  | q :: rest => if q.code == code then q' :: rest else q :: saveQuiz code q' rest

/-- Embeds POST /api/quiz/start/:code: 404 when no quiz matches, 403 when the
requester is not the creator, 400 when already live; otherwise sets status,
startTime and endTime and saves. -/
def startQuiz (st : Store) (now : Int) (code requesterId : String) :
    Except ApiError Store :=
  match st.quizzes.find? (fun q => q.code == code) with
  | none => .error .notFound
  | some quiz =>
    if quiz.creatorId != requesterId then .error .forbidden
    else if quiz.status == "live" then .error .invalidState
    else .ok { st with quizzes := saveQuiz code (startedQuiz quiz now) st.quizzes }

/-- Participant-facing question: text and options only; the type has no
correctIndex field. -/
structure PQuestion where
  text : String
  options : List String
  deriving Repr, DecidableEq

/-- Embeds the stripping map of GET /api/quiz/questions/:code:
`quiz.questions.map(q => ({ text: q.text, options: q.options }))`. -/
def stripQuestion (q : Question) : PQuestion :=
  { text := q.text, options := q.options }

/-- Success payload of GET /api/quiz/questions/:code. -/
structure QuestionsView where
  endTime : Option Int
  questions : List PQuestion
  deriving Repr, DecidableEq

/-- Per-quiz part of GET /api/quiz/questions/:code: only a live quiz exposes
its endTime and answer-stripped questions. -/
def viewQuizQuestions (quiz : Quiz) : Except ApiError QuestionsView :=
  if quiz.status == "live" then
    .ok { endTime := quiz.endTime, questions := quiz.questions.map stripQuestion }
  else .error .invalidState

/-- Embeds GET /api/quiz/questions/:code. A missing quiz and a non-live quiz
get the same 400 "Quiz not live" answer. -/
def getQuestionsForParticipant (st : Store) (code : String) :
    Except ApiError QuestionsView :=
  match st.quizzes.find? (fun q => q.code == code) with
  | none => .error .invalidState
  | some quiz => viewQuizQuestions quiz

/-- Two quizzes that a participant cannot tell apart: same code, status,
endTime and answer-stripped questions; correctIndex values may differ. -/
def sameParticipantView (q1 q2 : Quiz) : Prop :=
  q1.code = q2.code ∧ q1.status = q2.status ∧ q1.endTime = q2.endTime ∧
  q1.questions.map stripQuestion = q2.questions.map stripQuestion

/-- Embeds POST /api/quiz/create. The route rejects a falsy title or a missing
or empty questions array; the generated random code and the request time enter
as parameters. The quiz is persisted with the schema default status "created"
and no start or end time. -/
def createQuiz (st : Store) (now : Int) (code creatorId title descr : String)
    (duration : Int) (questions : List Question) : Except ApiError (Quiz × Store) :=
  if title == "" || questions.isEmpty then .error .validationError
  else
    let quiz : Quiz :=
      { code := code, title := title, description := descr, duration := duration,
        creatorId := creatorId, status := "created", startTime := none,
        endTime := none, questions := questions, createdAt := now }
    .ok (quiz, { st with quizzes := st.quizzes ++ [quiz] })

/-- Leaderboard entry: the `select("name rollNo score")` projection. -/
structure LBEntry where
  name : String
  rollNo : String
  score : Nat
  deriving Repr, DecidableEq

/-- The MongoDB sort key `{ score: -1, submittedAt: 1 }` as a relation:
higher score first, ties by earlier submittedAt. -/
def lbRel (a b : Submission) : Prop :=
  b.score < a.score ∨ (a.score = b.score ∧ a.submittedAt ≤ b.submittedAt)

instance : DecidableRel lbRel := fun a b => by
  unfold lbRel; exact inferInstance

instance : IsTotal Submission lbRel :=
  ⟨by intro a b; unfold lbRel; omega⟩

instance : IsTrans Submission lbRel :=
  ⟨by intro a b c; unfold lbRel; omega⟩

/-- The submissions of a given quiz code, in store order. -/
def subsFor (st : Store) (code : String) : List Submission :=
  st.submissions.filter (fun s => s.quizCode == code)

/-- Embeds GET /api/quiz/leaderboard/:code: submissions of the code sorted by
score descending then submittedAt ascending, projected to name, rollNo, score. -/
def leaderboard (st : Store) (code : String) : List LBEntry :=
  (List.insertionSort lbRel (subsFor st code)).map
    (fun s => { name := s.name, rollNo := s.rollNo, score := s.score })

/-- Success payload of GET /api/quiz/summary/:code; the average is the exact
rational value of the JS division. -/
structure SummaryOut where
  total : Nat
  highest : Nat
  average : Rat
  deriving Repr, DecidableEq

/-- Embeds GET /api/quiz/summary/:code: count, `Math.max` over the scores
(0 when there are none), and mean score (0 when there are none). -/
def summary (st : Store) (code : String) : SummaryOut :=
  let subs := subsFor st code
  { total := subs.length
  , highest := if subs.length = 0 then 0 else (subs.map (fun s => s.score)).foldl Nat.max 0
  , average := if subs.length = 0 then 0
               else ((subs.map (fun s => s.score)).sum : Rat) / (subs.length : Rat) }

/-- One base-36 digit as the character `Number.prototype.toString(36)` prints. -/
def base36Char (d : Fin 36) : Char :=
  if d.val < 10 then Char.ofNat (48 + d.val) else Char.ofNat (97 + (d.val - 10))

/-- Embeds `String.prototype.toUpperCase` on the ASCII characters in play. -/
def jsToUpper (c : Char) : Char :=
  if 97 ≤ c.toNat ∧ c.toNat ≤ 122 then Char.ofNat (c.toNat - 32) else c

/-- Embeds `Math.random().toString(36)`. The random double in [0,1) is
abstracted by the list of base-36 fractional digits the conversion prints:
the empty list stands for the value 0 (printed "0"), a nonempty list for a
value printed "0." followed by exactly those digits (for example the double
0.5 prints "0.i", digit list [18]). -/
def randomToString36 (digits : List (Fin 36)) : List Char :=
  if digits.isEmpty then ['0'] else '0' :: '.' :: digits.map base36Char

/-- Embeds `generateCode`:
`Math.random().toString(36).substring(2, 8).toUpperCase()`. -/
def generateCode (digits : List (Fin 36)) : String :=
  String.mk ((((randomToString36 digits).drop 2).take 6).map jsToUpper)

/-!
Helper lemmas.
-/

lemma foldl_if_count {α : Type} (p : α → Bool) :
    ∀ (l : List α) (n : Nat),
      l.foldl (fun acc x => if p x then acc + 1 else acc) n = n + l.countP p
  | [], n => by simp
  | a :: l, n => by
    simp only [List.foldl_cons, List.countP_cons, foldl_if_count p l]
    cases hp : p a
    · simp [hp]
    · simp [hp]
      omega

lemma computeScore_eq_countP (qs : List Question) (answers : List Int) :
    computeScore qs answers =
      qs.enum.countP (fun p => answers[p.1]? == some p.2.correctIndex) := by
  unfold computeScore
  rw [foldl_if_count]
  simp

lemma computeScore_le (qs : List Question) (answers : List Int) :
    computeScore qs answers ≤ qs.length := by
  rw [computeScore_eq_countP]
  calc qs.enum.countP (fun p => answers[p.1]? == some p.2.correctIndex)
      ≤ qs.enum.length := List.countP_le_length _
    _ = qs.length := List.enum_length

lemma saveQuiz_decomp (code : String) (q' : Quiz) :
    ∀ (l : List Quiz) (quiz : Quiz),
      l.find? (fun q => q.code == code) = some quiz →
      ∃ pre post, l = pre ++ quiz :: post ∧
        saveQuiz code q' l = pre ++ q' :: post ∧
        ∀ x ∈ pre, (x.code == code) = false
  | [], quiz, h => by simp at h
  | a :: l, quiz, h => by
    rw [List.find?_cons] at h
    cases ha : a.code == code with
    | true =>
      rw [ha] at h
      simp only [Option.some.injEq] at h
      subst h
      exact ⟨[], l, rfl, by simp [saveQuiz, ha], by simp⟩
    | false =>
      rw [ha] at h
      obtain ⟨pre, post, h1, h2, h3⟩ := saveQuiz_decomp code q' l quiz h
      refine ⟨a :: pre, post, by simp [h1], by simp [saveQuiz, ha, h2], ?_⟩
      intro x hx
      rcases List.mem_cons.mp hx with hx | hx
      · subst hx; exact ha
      · exact h3 x hx

lemma find?_append_first {α : Type} (p : α → Bool) (x : α) (hx : p x = true) :
    ∀ (pre post : List α), (∀ y ∈ pre, p y = false) →
      (pre ++ x :: post).find? p = some x
  | [], post, _ => by simp [List.find?_cons, hx]
  | a :: pre, post, hpre => by
    have ha := hpre a (List.mem_cons_self a pre)
    simp only [List.cons_append, List.find?_cons, ha]
    exact find?_append_first p x hx pre post (fun y hy => hpre y (List.mem_cons_of_mem a hy))

lemma viewQuizQuestions_congr {a b : Quiz} (h : sameParticipantView a b) :
    viewQuizQuestions a = viewQuizQuestions b := by
  obtain ⟨_, h2, h3, h4⟩ := h
  unfold viewQuizQuestions
  rw [h2, h3, h4]

lemma find?_forall₂_view (code : String) :
    ∀ {l1 l2 : List Quiz}, List.Forall₂ sameParticipantView l1 l2 →
      (match l1.find? (fun q => q.code == code) with
       | none => (Except.error ApiError.invalidState : Except ApiError QuestionsView)
       | some quiz => viewQuizQuestions quiz) =
      (match l2.find? (fun q => q.code == code) with
       | none => Except.error ApiError.invalidState
       | some quiz => viewQuizQuestions quiz) := by
  intro l1 l2 hrel
  induction hrel with
  | nil => rfl
  | cons hab _ ih =>
    rename_i a b l1' l2' _
    have hcode : a.code = b.code := hab.1
    rw [List.find?_cons, List.find?_cons, ← hcode]
    cases hac : a.code == code with
    | true => exact viewQuizQuestions_congr hab
    | false => exact ih

lemma foldl_max_init : ∀ (l : List Nat) (n : Nat), n ≤ l.foldl Nat.max n
  | [], n => le_refl n
  | a :: l, n => le_trans (Nat.le_max_left n a) (foldl_max_init l (Nat.max n a))

lemma foldl_max_le_mem : ∀ (l : List Nat) (n : Nat), ∀ x ∈ l, x ≤ l.foldl Nat.max n
  | a :: l, n, x, hx => by
    rcases List.mem_cons.mp hx with hx | hx
    · subst hx
      exact le_trans (Nat.le_max_right n x) (foldl_max_init l (Nat.max n x))
    · exact foldl_max_le_mem l (Nat.max n a) x hx

lemma foldl_max_mem : ∀ (l : List Nat) (n : Nat),
    l.foldl Nat.max n = n ∨ l.foldl Nat.max n ∈ l
  | [], n => Or.inl rfl
  | a :: l, n => by
    rcases foldl_max_mem l (Nat.max n a) with h | h
    · rw [List.foldl_cons, h]
      rcases (show Nat.max n a = n ∨ Nat.max n a = a by
        rcases Nat.le_total n a with h' | h'
        · exact Or.inr (Nat.max_eq_right h')
        · exact Or.inl (Nat.max_eq_left h')) with hm | hm <;> rw [hm]
      · exact Or.inl rfl
      · exact Or.inr (List.mem_cons_self a l)
    · exact Or.inr (List.mem_cons_of_mem a (by rw [List.foldl_cons]; exact h))

/-!
Concrete fixtures used by witnesses and counterexamples.
-/

/-- A live quiz with two questions (correct answers 2 and 0). -/
def liveQuiz : Quiz :=
  { code := "LIVE01", title := "T", description := "d", duration := 60,
    creatorId := "u1", status := "live", startTime := some 1000,
    endTime := some 61000,
    questions := [⟨"q1", ["a", "b", "c"], 2⟩, ⟨"q2", ["x", "y"], 0⟩],
    createdAt := 0 }

/-- A store holding one live quiz and no submissions. -/
def liveStore : Store := { quizzes := [liveQuiz], submissions := [] }

/-- The live store after roll number r1 has already submitted. -/
def dupStore : Store :=
  { quizzes := [liveQuiz],
    submissions := [{ quizCode := "LIVE01", name := "n", branch := "b",
                      rollNo := "r1", answers := [2, 0], score := 2,
                      submittedAt := 1500 }] }

lemma jsToUpper_base36Char_range :
    ∀ d : Fin 36,
      (48 ≤ (jsToUpper (base36Char d)).toNat ∧ (jsToUpper (base36Char d)).toNat ≤ 57) ∨
      (65 ≤ (jsToUpper (base36Char d)).toNat ∧ (jsToUpper (base36Char d)).toNat ≤ 90) := by
  decide

/-!
Claim theorems.
-/

/-- C1: whenever submitAnswers succeeds (the quiz is found, time is not over
and no prior submission by the roll number exists), the returned score is
exactly the number of question indices i with answers[i] equal to
questions[i].correctIndex — a missing or out-of-range answer entry reads as
none and never matches, and the operation is total (it never throws) — the
score is at most the number of questions, and the submission persisted carries
that score. -/
theorem submitAnswers_score_spec
    (st : Store) (now : Int) (code name branch rollNo : String)
    (answers : List Int) (quiz : Quiz)
    (hfind : st.quizzes.find? (fun q => q.code == code) = some quiz)
    (htime : timeOver now quiz.endTime = false)
    (hdup : st.submissions.find?
      (fun s => s.quizCode == quiz.code && s.rollNo == rollNo) = none) :
    submitAnswers st now code name branch rollNo answers =
      .ok ({ score := quiz.questions.enum.countP
               (fun p => answers[p.1]? == some p.2.correctIndex),
             total := quiz.questions.length },
           { quizzes := st.quizzes,
             submissions := st.submissions ++
               [{ quizCode := code, name := name, branch := branch, rollNo := rollNo,
                  answers := answers,
                  score := quiz.questions.enum.countP
                    (fun p => answers[p.1]? == some p.2.correctIndex),
                  submittedAt := now }] }) ∧
    quiz.questions.enum.countP (fun p => answers[p.1]? == some p.2.correctIndex) ≤
      quiz.questions.length := by
  have hcode : quiz.code = code := by
    have h := List.find?_some hfind
    simpa using h
  constructor
  · simp only [submitAnswers, hfind, htime, Bool.false_eq_true, if_false, hdup]
    simp [computeScore_eq_countP, hcode]
  · rw [← computeScore_eq_countP]
    exact computeScore_le quiz.questions answers

/-- C1 witness: on the concrete live store, answers [2, 1] against correct
answers [2, 0] score exactly 1 of 2 and the submission is persisted. -/
theorem submitAnswers_score_spec_witness :
    submitAnswers liveStore 2000 "LIVE01" "n" "b" "r1" [2, 1] =
      .ok ({ score := 1, total := 2 },
           { quizzes := liveStore.quizzes,
             submissions := [{ quizCode := "LIVE01", name := "n", branch := "b",
                               rollNo := "r1", answers := [2, 1], score := 1,
                               submittedAt := 2000 }] }) ∧ (1 : Nat) ≤ 2 :=
  submitAnswers_score_spec liveStore 2000 "LIVE01" "n" "b" "r1" [2, 1] liveQuiz
    rfl rfl rfl

/-- C5: a submitAnswers call for a (code, rollNo) pair that already has a
submission fails with the already-attempted error, provided the call gets as
far as the duplicate check (the quiz exists and time is not over). An error
result carries no store, so no new submission is created. -/
theorem submitAnswers_duplicate_rejected
    (st : Store) (now : Int) (code name branch rollNo : String)
    (answers : List Int) (quiz : Quiz) (sub : Submission)
    (hfind : st.quizzes.find? (fun q => q.code == code) = some quiz)
    (htime : timeOver now quiz.endTime = false)
    (hdup : st.submissions.find?
      (fun s => s.quizCode == quiz.code && s.rollNo == rollNo) = some sub) :
    submitAnswers st now code name branch rollNo answers =
      .error .alreadyAttempted := by
  simp only [submitAnswers, hfind, htime, Bool.false_eq_true, if_false, hdup]

/-- C5 witness: a second submission by roll number r1 on the concrete store is
rejected as already attempted. -/
theorem submitAnswers_duplicate_rejected_witness :
    submitAnswers dupStore 2000 "LIVE01" "n2" "b2" "r1" [0, 0] =
      .error .alreadyAttempted :=
  submitAnswers_duplicate_rejected dupStore 2000 "LIVE01" "n2" "b2" "r1" [0, 0]
    liveQuiz { quizCode := "LIVE01", name := "n", branch := "b", rollNo := "r1",
               answers := [2, 0], score := 2, submittedAt := 1500 }
    rfl rfl rfl

/-- C6: a submitAnswers call on an existing quiz strictly after its endTime
fails with the time-expired error, whatever the answers are; the error result
carries no store, so no submission is persisted. -/
theorem submitAnswers_time_expired
    (st : Store) (now : Int) (code name branch rollNo : String)
    (answers : List Int) (quiz : Quiz) (e : Int)
    (hfind : st.quizzes.find? (fun q => q.code == code) = some quiz)
    (hend : quiz.endTime = some e) (hlate : e < now) :
    submitAnswers st now code name branch rollNo answers = .error .timeExpired := by
  have ht : timeOver now quiz.endTime = true := by
    simp [timeOver, hend, hlate]
  simp only [submitAnswers, hfind, ht, if_true]

/-- C6 witness: submitting at time 99999 against the concrete quiz that ended
at 61000 fails as time-expired, even with all-correct answers. -/
theorem submitAnswers_time_expired_witness :
    submitAnswers liveStore 99999 "LIVE01" "n" "b" "r9" [2, 0] =
      .error .timeExpired :=
  submitAnswers_time_expired liveStore 99999 "LIVE01" "n" "b" "r9" [2, 0]
    liveQuiz 61000 rfl rfl (by decide)

/-- A created, never started quiz owned by u1. -/
def createdQuiz : Quiz :=
  { code := "QZ0001", title := "T", description := "", duration := 60,
    creatorId := "u1", status := "created", startTime := none, endTime := none,
    questions := [⟨"q1", ["a", "b"], 0⟩], createdAt := 0 }

/-- A store holding only the created quiz. -/
def createdStore : Store := { quizzes := [createdQuiz], submissions := [] }

/-- The created store after its quiz is started at time 5. -/
def startedStore : Store :=
  { quizzes := [startedQuiz createdQuiz 5], submissions := [] }

/-- A live quiz whose single question has correct answer 0. -/
def redQuizA : Quiz := { liveQuiz with questions := [⟨"q1", ["a", "b"], 0⟩] }

/-- The same quiz with the correct answer changed to 1. -/
def redQuizB : Quiz := { liveQuiz with questions := [⟨"q1", ["a", "b"], 1⟩] }

/-- C2: the participant questions route redacts the answer key. A non-live
quiz always gets the invalid-state error; a success value is exactly the
endTime paired with the questions stripped to text and options (a type with
no correctIndex field); and the route's output depends only on data visible
to participants, so stores whose quizzes agree on code, status, endTime and
stripped questions — in particular stores differing only in correctIndex
values — produce identical output. -/
theorem participant_questions_redaction :
    (∀ quiz : Quiz, quiz.status ≠ "live" →
      viewQuizQuestions quiz = .error .invalidState) ∧
    (∀ (quiz : Quiz) (v : QuestionsView), viewQuizQuestions quiz = .ok v →
      v = { endTime := quiz.endTime,
            questions := quiz.questions.map stripQuestion }) ∧
    (∀ (st1 st2 : Store) (code : String),
      List.Forall₂ sameParticipantView st1.quizzes st2.quizzes →
      getQuestionsForParticipant st1 code = getQuestionsForParticipant st2 code) := by
  refine ⟨?_, ?_, ?_⟩
  · intro quiz hq
    simp [viewQuizQuestions, hq]
  · intro quiz v h
    unfold viewQuizQuestions at h
    split at h
    · simp only [Except.ok.injEq] at h
      exact h.symm
    · cases h
  · intro st1 st2 code hrel
    unfold getQuestionsForParticipant
    exact find?_forall₂_view code hrel

/-- C2 witness: two stores whose only quiz differs exactly in its correctIndex
value give participants identical responses. -/
theorem participant_questions_redaction_witness :
    getQuestionsForParticipant { quizzes := [redQuizA], submissions := [] } "LIVE01" =
      getQuestionsForParticipant { quizzes := [redQuizB], submissions := [] } "LIVE01" :=
  participant_questions_redaction.2.2
    { quizzes := [redQuizA], submissions := [] }
    { quizzes := [redQuizB], submissions := [] } "LIVE01"
    (List.Forall₂.cons ⟨rfl, rfl, rfl, rfl⟩ List.Forall₂.nil)

/-- C4: when startQuiz succeeds on a quiz, the saved quiz is the found quiz
with status live, startTime the request time, and endTime the request time
plus duration seconds (in milliseconds), so endTime minus startTime is
exactly the duration; the updated quiz is what a later lookup of the code
finds. -/
theorem startQuiz_sets_times
    (st : Store) (now : Int) (code uid : String) (quiz : Quiz) (st' : Store)
    (hfind : st.quizzes.find? (fun q => q.code == code) = some quiz)
    (h : startQuiz st now code uid = .ok st') :
    st'.quizzes.find? (fun q => q.code == code) = some (startedQuiz quiz now) ∧
    (startedQuiz quiz now).status = "live" ∧
    (startedQuiz quiz now).startTime = some now ∧
    (startedQuiz quiz now).endTime = some (now + quiz.duration * 1000) ∧
    (now + quiz.duration * 1000) - now = quiz.duration * 1000 := by
  have hq : (quiz.code == code) = true := by simpa using List.find?_some hfind
  simp only [startQuiz, hfind] at h
  split at h
  · cases h
  split at h
  · cases h
  simp only [Except.ok.injEq] at h
  subst h
  obtain ⟨pre, post, _, h2, h3⟩ := saveQuiz_decomp code (startedQuiz quiz now) st.quizzes quiz hfind
  refine ⟨?_, rfl, rfl, rfl, by omega⟩
  dsimp only
  rw [h2]
  exact find?_append_first _ _ (by simpa [startedQuiz] using hq) pre post h3

/-- C4 witness: starting the concrete created quiz (duration 60 s) at time 5
yields endTime 60005, exactly 60000 ms after startTime 5. -/
theorem startQuiz_sets_times_witness :
    startedStore.quizzes.find? (fun q => q.code == "QZ0001") =
      some (startedQuiz createdQuiz 5) ∧
    (startedQuiz createdQuiz 5).status = "live" ∧
    (startedQuiz createdQuiz 5).startTime = some 5 ∧
    (startedQuiz createdQuiz 5).endTime = some (5 + createdQuiz.duration * 1000) ∧
    (5 + createdQuiz.duration * 1000) - 5 = createdQuiz.duration * 1000 :=
  startQuiz_sets_times createdStore 5 "QZ0001" "u1" createdQuiz startedStore rfl rfl

/-- C10: a successful startQuiz leaves the submissions collection untouched
and rewrites exactly one quiz document — the store splits as pre ++ quiz ::
post before and pre ++ startedQuiz quiz now :: post after, so every other
quiz is unchanged, and the update preserves code, title, description,
duration, creatorId, questions (hence every correctIndex) and createdAt,
changing only status, startTime and endTime. -/
theorem startQuiz_frame
    (st : Store) (now : Int) (code uid : String) (st' : Store)
    (h : startQuiz st now code uid = .ok st') :
    st'.submissions = st.submissions ∧
    ∃ pre quiz post,
      st.quizzes = pre ++ quiz :: post ∧
      st'.quizzes = pre ++ startedQuiz quiz now :: post ∧
      (startedQuiz quiz now).code = quiz.code ∧
      (startedQuiz quiz now).title = quiz.title ∧
      (startedQuiz quiz now).description = quiz.description ∧
      (startedQuiz quiz now).duration = quiz.duration ∧
      (startedQuiz quiz now).creatorId = quiz.creatorId ∧
      (startedQuiz quiz now).questions = quiz.questions ∧
      (startedQuiz quiz now).createdAt = quiz.createdAt := by
  cases hfind : st.quizzes.find? (fun q => q.code == code) with
  | none => simp only [startQuiz, hfind] at h; cases h
  | some quiz =>
    simp only [startQuiz, hfind] at h
    split at h
    · cases h
    split at h
    · cases h
    simp only [Except.ok.injEq] at h
    subst h
    obtain ⟨pre, post, h1, h2, _⟩ :=
      saveQuiz_decomp code (startedQuiz quiz now) st.quizzes quiz hfind
    exact ⟨rfl, pre, quiz, post, h1, h2, rfl, rfl, rfl, rfl, rfl, rfl, rfl⟩

/-- C10 witness: starting the concrete created quiz modifies only that quiz
document and no submission. -/
theorem startQuiz_frame_witness :
    startedStore.submissions = createdStore.submissions ∧
    ∃ pre quiz post,
      createdStore.quizzes = pre ++ quiz :: post ∧
      startedStore.quizzes = pre ++ startedQuiz quiz 5 :: post ∧
      (startedQuiz quiz 5).code = quiz.code ∧
      (startedQuiz quiz 5).title = quiz.title ∧
      (startedQuiz quiz 5).description = quiz.description ∧
      (startedQuiz quiz 5).duration = quiz.duration ∧
      (startedQuiz quiz 5).creatorId = quiz.creatorId ∧
      (startedQuiz quiz 5).questions = quiz.questions ∧
      (startedQuiz quiz 5).createdAt = quiz.createdAt :=
  startQuiz_frame createdStore 5 "QZ0001" "u1" startedStore rfl

/-- The store with no quizzes and no submissions. -/
def emptyStore : Store := { quizzes := [], submissions := [] }

/-- The created-quiz store after a participant submitted to the never-started
quiz. -/
def cexSubmittedStore : Store :=
  { quizzes := [createdQuiz],
    submissions := [{ quizCode := "QZ0001", name := "pn", branch := "pb",
                      rollNo := "r1", answers := [0], score := 1,
                      submittedAt := 10 }] }

/-- C3 counterexample: a quiz created from the empty store and never started
(status stays "created", endTime unset, so the JS time check compares with
NaN and passes) accepts a submission — submitAnswers succeeds and persists a
submission for a quiz that was never live. -/
theorem submission_without_live_cex :
    createQuiz emptyStore 0 "QZ0001" "u1" "T" "" 60 [⟨"q1", ["a", "b"], 0⟩] =
      .ok (createdQuiz, createdStore) ∧
    createdQuiz.status = "created" ∧
    createdQuiz.endTime = none ∧
    submitAnswers createdStore 10 "QZ0001" "pn" "pb" "r1" [0] =
      .ok ({ score := 1, total := 1 }, cexSubmittedStore) ∧
    cexSubmittedStore.submissions.length = 1 :=
  ⟨rfl, rfl, rfl, rfl, rfl⟩

/-- C3 amended: a submission for code c exists only if a quiz with code c
existed in the store when it was submitted — not necessarily one that was
ever live, since submitAnswers checks no status: each success finds the quiz
by code and appends exactly one submission carrying that code. -/
theorem submission_requires_quiz_exists
    (st : Store) (now : Int) (code name branch rollNo : String)
    (answers : List Int) (r : SubmitResult) (st' : Store)
    (h : submitAnswers st now code name branch rollNo answers = .ok (r, st')) :
    (st.quizzes.find? (fun q => q.code == code)).isSome = true ∧
    st'.quizzes = st.quizzes ∧
    st'.submissions = st.submissions ++
      [{ quizCode := code, name := name, branch := branch, rollNo := rollNo,
         answers := answers, score := r.score, submittedAt := now }] := by
  cases hfind : st.quizzes.find? (fun q => q.code == code) with
  | none => simp only [submitAnswers, hfind] at h; cases h
  | some quiz =>
    have hcode : quiz.code = code := by simpa using List.find?_some hfind
    simp only [submitAnswers, hfind] at h
    split at h
    · cases h
    split at h
    · cases h
    simp only [Except.ok.injEq, Prod.mk.injEq] at h
    obtain ⟨hr, hst⟩ := h
    subst hr
    subst hst
    exact ⟨by simp [hfind], rfl, by simp [hcode]⟩

/-- C3 amended witness: the concrete never-live quiz store satisfies the
amended invariant for its successful submission. -/
theorem submission_requires_quiz_exists_witness :
    (createdStore.quizzes.find? (fun q => q.code == "QZ0001")).isSome = true ∧
    cexSubmittedStore.quizzes = createdStore.quizzes ∧
    cexSubmittedStore.submissions = createdStore.submissions ++
      [{ quizCode := "QZ0001", name := "pn", branch := "pb", rollNo := "r1",
         answers := [0], score := 1, submittedAt := 10 }] :=
  submission_requires_quiz_exists createdStore 10 "QZ0001" "pn" "pb" "r1" [0]
    { score := 1, total := 1 } cexSubmittedStore rfl

/-- C7: the leaderboard consists of exactly the submissions for the code
(a permutation of the filtered collection), sorted by the relation "higher
score first, ties by earlier submittedAt", and each entry is the name,
rollNo, score projection of the corresponding submission. -/
theorem leaderboard_sorted_spec (st : Store) (code : String) :
    (List.insertionSort lbRel (subsFor st code)).Perm (subsFor st code) ∧
    List.Sorted lbRel (List.insertionSort lbRel (subsFor st code)) ∧
    leaderboard st code = (List.insertionSort lbRel (subsFor st code)).map
      (fun s => { name := s.name, rollNo := s.rollNo, score := s.score }) :=
  ⟨List.perm_insertionSort lbRel _, List.sorted_insertionSort lbRel _, rfl⟩

/-- C8: the summary reports the number of submissions for the code, a highest
value that bounds every score and is attained by some submission whenever one
exists, and an average that is the exact mean (average times count equals the
score sum); with zero submissions it is total 0, highest 0, average 0,
with no division performed. -/
theorem summary_spec (st : Store) (code : String) :
    (summary st code).total = (subsFor st code).length ∧
    (∀ s ∈ subsFor st code, s.score ≤ (summary st code).highest) ∧
    (subsFor st code ≠ [] →
      ∃ s, s ∈ subsFor st code ∧ (summary st code).highest = s.score) ∧
    (summary st code).average * ((subsFor st code).length : Rat) =
      (((subsFor st code).map (fun s => s.score)).sum : Rat) ∧
    (subsFor st code = [] →
      summary st code = { total := 0, highest := 0, average := 0 }) := by
  by_cases hnil : subsFor st code = []
  · refine ⟨rfl, ?_, ?_, ?_, fun _ => ?_⟩ <;> simp [summary, hnil]
  · have hlen : (subsFor st code).length ≠ 0 :=
      fun hl => hnil (List.length_eq_zero.mp hl)
    have hhigh : (summary st code).highest =
        ((subsFor st code).map (fun s => s.score)).foldl Nat.max 0 := by
      simp [summary, hlen]
    have havg : (summary st code).average =
        (((subsFor st code).map (fun s => s.score)).sum : Rat) /
          ((subsFor st code).length : Rat) := by
      simp [summary, hlen]
    refine ⟨rfl, ?_, ?_, ?_, fun hcontra => absurd hcontra hnil⟩
    · intro s hs
      rw [hhigh]
      exact foldl_max_le_mem _ 0 s.score (List.mem_map_of_mem _ hs)
    · intro _
      rw [hhigh]
      rcases foldl_max_mem ((subsFor st code).map (fun s => s.score)) 0 with h0 | hmem
      · obtain ⟨s0, hs0⟩ := List.exists_mem_of_ne_nil (subsFor st code) hnil
        refine ⟨s0, hs0, ?_⟩
        have hle := foldl_max_le_mem ((subsFor st code).map (fun s => s.score)) 0
          s0.score (List.mem_map_of_mem _ hs0)
        omega
      · obtain ⟨s0, hs0, hscore⟩ := List.mem_map.mp hmem
        exact ⟨s0, hs0, hscore.symm⟩
    · rw [havg]
      exact div_mul_cancel₀ _ (Nat.cast_ne_zero.mpr hlen)

/-- C8 witness: the summary of a code with no submissions at all is total 0,
highest 0, average 0. -/
theorem summary_spec_witness :
    summary emptyStore "NONE" = { total := 0, highest := 0, average := 0 } :=
  (summary_spec emptyStore "NONE").2.2.2.2 rfl

/-- C9 counterexample: for the random double 0.5 — reachable, since V8 draws
Math.random values of the form k / 2^52 — toString(36) prints "0.i", so the
generated code is the single character "I", not 6 characters. -/
theorem generateCode_length_cex :
    generateCode [(18 : Fin 36)] = "I" ∧
    ¬(generateCode [(18 : Fin 36)]).length = 6 := by
  decide

/-- C9 amended: every generated code is a string of at most 6 uppercase
base-36 characters (digits 0-9 or letters A-Z); it has exactly 6 characters
precisely when the random value's printed base-36 expansion has at least 6
fractional digits, and fewer otherwise. -/
theorem generateCode_spec (digits : List (Fin 36)) :
    (generateCode digits).length ≤ 6 ∧
    (∀ c ∈ (generateCode digits).toList,
      (48 ≤ c.toNat ∧ c.toNat ≤ 57) ∨ (65 ≤ c.toNat ∧ c.toNat ≤ 90)) ∧
    (6 ≤ digits.length → (generateCode digits).length = 6) := by
  cases digits with
  | nil => exact ⟨by decide, by decide, by decide⟩
  | cons d ds =>
    have hlen0 : (generateCode (d :: ds)).length =
        ((((d :: ds).map base36Char).take 6).map jsToUpper).length := rfl
    have hlen : (generateCode (d :: ds)).length = min 6 (ds.length + 1) := by
      rw [hlen0, List.length_map, List.length_take, List.length_map, List.length_cons]
    refine ⟨?_, ?_, ?_⟩
    · rw [hlen]
      exact Nat.min_le_left 6 _
    · intro c hc
      have hc' : c ∈ (((d :: ds).map base36Char).take 6).map jsToUpper := hc
      obtain ⟨c0, hc0, rfl⟩ := List.mem_map.mp hc'
      have hc0' : c0 ∈ (d :: ds).map base36Char := List.mem_of_mem_take hc0
      obtain ⟨d0, _, rfl⟩ := List.mem_map.mp hc0'
      exact jsToUpper_base36Char_range d0
    · intro h6
      rw [hlen]
      have h6' : 6 ≤ ds.length + 1 := by simpa using h6
      exact Nat.min_eq_left h6'

/-- C9 amended witness: a random value with at least 6 printed base-36 digits
yields a code of exactly 6 characters. -/
theorem generateCode_spec_witness :
    (generateCode [0, 1, 2, 35, 10, 11]).length = 6 :=
  (generateCode_spec [0, 1, 2, 35, 10, 11]).2.2 (by decide)

end QuizBackend
